import Mathlib

/-!
# Verification of the EvoFlow network-descriptor genome engine

This file embeds (shallowly) the descriptor classes of `Network.py`:
`NetworkDescriptor`, `MLPDescriptor`, `ConvDescriptor`, `TConvDescriptor`
and the free function `compute_output`, and proves/refutes the frozen
claims about them.

Modelling conventions:
* Python/numpy machine integers are modelled as `Int`; Python floor
  division `//` is `Int.fdiv`; the one float computation (`/` in
  `TConvDescriptor.remove_random_layer`'s feasibility check) is modelled
  exactly over `ℚ`.
* Python sequences are `List`s.  Python indexing (which supports negative
  indices and raises `IndexError` out of range), `list.insert` (which
  clamps and never raises), `list.pop` and `np.insert`/`np.delete` (which
  raise out of range) each get a faithful helper below.
* Operations that can raise a Python exception return `Option`; `none`
  means the call raises.
* Opaque Python objects (activation functions, initializers, dropout
  probabilities) are modelled as `Int` codes; `None` is `Option.none`
  where a slot can hold Python `None`.
* Calls to `np.random.*` are modelled by passing the drawn values (or a
  stream of draws) as explicit arguments.
* The `dropout`/`batch_norm` booleans of the base class are omitted from
  the Conv/TConv states: no operation embedded here reads or writes them.
-/

namespace EvoFlow

/-- `l[n]` for a list access the source performs on data whose length it
controls, defaulting to `0` (used only where the source's access is in
range for the inputs the theorems quantify over). -/
def getI (l : List Int) (n : Nat) : Int := l.getD n 0

/-- Resolve a Python index (negative = from the end) against a list of
length `len`; `none` models an `IndexError`. -/
def pyIdx (len : Nat) (i : Int) : Option Nat :=
  if 0 ≤ i ∧ i < (len : Int) then some i.toNat
  else if -(len : Int) ≤ i ∧ i < 0 then some (len + i).toNat
  else none

/-- Python `l[i]`. -/
def pyGet (l : List α) (i : Int) : Option α :=
  (pyIdx l.length i).bind fun n => l.get? n

/-- Python `l[i] = v` (list item assignment). -/
def pySet (l : List α) (i : Int) (v : α) : Option (List α) :=
  (pyIdx l.length i).map fun n => l.set n v

/-- The index at which Python's `list.insert(i, v)` actually inserts:
negative indices count from the end, and the result is clamped into
`[0, len]`.  `list.insert` never raises. -/
def pyInsertIdx (len : Nat) (i : Int) : Nat :=
  if i < 0 then (max ((len : Int) + i) 0).toNat else min i.toNat len

/-- Python `l.insert(i, v)`. -/
def pyInsert (l : List α) (i : Int) (v : α) : List α :=
  l.insertIdx (pyInsertIdx l.length i) v

/-- Python `l.pop(i)`: `none` models the `IndexError` raised out of range. -/
def pyPop (l : List α) (i : Int) : Option (List α) :=
  (pyIdx l.length i).map fun n => l.eraseIdx n

/-- `np.insert(arr, i, v)`: a negative index counts from the end, and an
index outside `[0, len]` raises (`none`). -/
def npInsert (l : List α) (i : Int) (v : α) : Option (List α) :=
  let j := if i < 0 then i + l.length else i
  if 0 ≤ j ∧ j ≤ (l.length : Int) then some (l.insertIdx j.toNat v) else none

/-- `np.delete(arr, i)`: a negative index counts from the end, and an
index outside `[0, len)` raises (`none`). -/
def npDelete (l : List α) (i : Int) : Option (List α) :=
  let j := if i < 0 then i + l.length else i
  if 0 ≤ j ∧ j < (l.length : Int) then some (l.eraseIdx j.toNat) else none

/-- `np.prod` of an integer list. -/
def prodI (l : List Int) : Int := l.foldl (· * ·) 1

/-- `compute_output(input_shape, layer_type, filter_size, stride)`
(`Network.py`, lines 644-650).  For `layer_type < 3` (convolution and
pooling) the output is `(input[:2] - filter[:2] + 1) // stride[:2]`,
each component clamped below by 1 (`np.max([out, 1])`), plus the filter's
channel entry; otherwise (transposed convolution) it is the two-element
list `[(input[0]-1)*stride[0]+filter[0], (input[1]-1)*stride[1]+filter[1]]`. -/
def compute_output (input_shape : List Int) (layer_type : Int)
    (filter_size : List Int) (stride : List Int) : List Int :=
  if layer_type < 3 then
    [max ((getI input_shape 0 - getI filter_size 0 + 1).fdiv (getI stride 0)) 1,
     max ((getI input_shape 1 - getI filter_size 1 + 1).fdiv (getI stride 1)) 1,
     getI filter_size 2]
  else
    [(getI input_shape 0 - 1) * getI stride 0 + getI filter_size 0,
     (getI input_shape 1 - 1) * getI stride 1 + getI filter_size 1]

/-! ## Base class `NetworkDescriptor` (lines 13-66)

`change_activation` / `change_weight_init` (lines 45-55) are inherited
unchanged by `MLPDescriptor` and `ConvDescriptor`; they are modelled
generically over the stored sequence. -/

/-- `NetworkDescriptor.change_activation(layer_pos, new_act_fn)`
(lines 45-49): silently returns when `layer_pos < 0` or
`layer_pos > number_hidden_layers`, otherwise assigns
`act_functions[layer_pos]` (a Python item assignment, which raises if
`layer_pos` is not a valid index of the sequence). -/
def changeActivationBase (number_hidden_layers : Int) (act_functions : List α)
    (layer_pos : Int) (new_act_fn : α) : Option (List α) :=
  if layer_pos < 0 ∨ layer_pos > number_hidden_layers then some act_functions
  else pySet act_functions layer_pos new_act_fn

/-- `NetworkDescriptor.change_weight_init(layer_pos, new_weight_fn)`
(lines 51-55): same bounds policy as `change_activation`. -/
def changeWeightInitBase (number_hidden_layers : Int) (init_functions : List α)
    (layer_pos : Int) (new_weight_fn : α) : Option (List α) :=
  if layer_pos < 0 ∨ layer_pos > number_hidden_layers then some init_functions
  else pySet init_functions layer_pos new_weight_fn

/-! ## `MLPDescriptor` (lines 68-196) -/

/-- State of an `MLPDescriptor`.  Widths (`dims`), initializer and
activation choices and dropout probabilities are the parallel sequences;
function objects and probabilities are opaque `Int` codes. -/
structure MLPState where
  number_hidden_layers : Int
  input_dim : Int
  output_dim : Int
  dims : List Int
  init_functions : List Int
  act_functions : List Int
  dropout_probs : List Int
  deriving DecidableEq

/-- `MLPDescriptor.add_layer(layer_pos, lay_dims, init_w_function,
init_a_function, dropout, drop_prob, batch_norm)` (lines 115-137):
returns unchanged (no-op) if `layer_pos < 0` or
`layer_pos >= number_hidden_layers`; otherwise `np.insert`s into `dims`,
`init_functions`, `act_functions`, increments `number_hidden_layers`, and
`np.insert`s into `dropout_probs`.  The `dropout` and `batch_norm`
arguments are unused by the source. -/
def MLPState.add_layer (s : MLPState) (layer_pos lay_dims init_w_function
    init_a_function drop_prob : Int) : Option MLPState :=
  if layer_pos < 0 ∨ layer_pos ≥ s.number_hidden_layers then some s
  else
    (npInsert s.dims layer_pos lay_dims).bind fun dims =>
    (npInsert s.init_functions layer_pos init_w_function).bind fun inits =>
    (npInsert s.act_functions layer_pos init_a_function).bind fun acts =>
    (npInsert s.dropout_probs layer_pos drop_prob).bind fun probs =>
    some { s with dims := dims, init_functions := inits, act_functions := acts,
                  number_hidden_layers := s.number_hidden_layers + 1,
                  dropout_probs := probs }

/-- `MLPDescriptor.remove_layer(layer_pos)` (lines 139-160): returns
unchanged (no-op) if `layer_pos <= 1` or
`layer_pos > number_hidden_layers`; otherwise `np.delete`s the entry at
`layer_pos` from the four parallel sequences and decrements
`number_hidden_layers`. -/
def MLPState.remove_layer (s : MLPState) (layer_pos : Int) : Option MLPState :=
  if layer_pos ≤ 1 ∨ layer_pos > s.number_hidden_layers then some s
  else
    (npDelete s.dims layer_pos).bind fun dims =>
    (npDelete s.init_functions layer_pos).bind fun inits =>
    (npDelete s.act_functions layer_pos).bind fun acts =>
    (npDelete s.dropout_probs layer_pos).bind fun probs =>
    some { s with dims := dims, init_functions := inits, act_functions := acts,
                  dropout_probs := probs,
                  number_hidden_layers := s.number_hidden_layers - 1 }

/-- Python `list.index(x)`: index of the first occurrence, `none` models
the `ValueError` raised when absent. -/
def listIndex (ref : List Int) (x : Int) : Option Int :=
  match ref with
  | [] => none
  | a :: rest => if a = x then some 0 else (listIndex rest x).map (· + 1)

/-- The `for f in ...: aux.append(ref_list.index(f))` loops of
`codify_components`. -/
def mapListIndex (ref : List Int) : List Int → Option (List Int)
  | [] => some []
  | x :: xs =>
    (listIndex ref x).bind fun i =>
    (mapListIndex ref xs).bind fun rest =>
    some (i :: rest)

/-- `[-1] * k` (empty when `k ≤ 0`). -/
def sentinelPad (k : Int) : List Int := List.replicate k.toNat (-1)

/-- `MLPDescriptor.codify_components(max_hidden_layers,
ref_list_init_functions, ref_list_act_functions)` (lines 173-196):
`[number_hidden_layers] + dims + [-1]*(max_total-len(dims)) + init
indices + padding + act indices + padding` with
`max_total = max_hidden_layers + 1`. -/
def MLPState.codify_components (s : MLPState) (max_hidden_layers : Int)
    (ref_init ref_act : List Int) : Option (List Int) :=
  let maxTotal := max_hidden_layers + 1
  (mapListIndex ref_init s.init_functions).bind fun auxF =>
  (mapListIndex ref_act s.act_functions).bind fun auxA =>
  some ([s.number_hidden_layers] ++ s.dims ++ sentinelPad (maxTotal - s.dims.length)
        ++ auxF ++ sentinelPad (maxTotal - (auxF.length : Int))
        ++ auxA ++ sentinelPad (maxTotal - (auxA.length : Int)))

/-! ## `ConvDescriptor` (lines 199-386)

`random_init` (lines 226-282) stores each layer's filters and strides as
a Python *pair* `(conv_params, pool_params)` (with `pool_params = None`
for a pure convolution), while `add_layer` (lines 284-308) inserts flat
3-element lists.  Both forms can therefore occur in the same sequence, so
an entry is a sum type. -/

/-- One entry of `ConvDescriptor.filters` / `ConvDescriptor.strides`:
either a flat 3-element parameter list (inserted by `add_layer`, also the
constructor defaults) or the `(primary, companion-pool)` tuple appended
by `random_init` (`companion = None` when the layer kind is 2). -/
inductive ConvFilt where
  | flat (t : List Int)
  | pair (primary : List Int) (companion : Option (List Int))
  deriving DecidableEq

/-- State of a `ConvDescriptor`.  `layers` is the sequence of layer-kind
tags, `shapes` the cached blob shapes.  `output_dim` is the scalar that
`np.prod(shape) < self.output_dim` compares against (the target output
volume). -/
structure ConvState where
  number_hidden_layers : Int
  input_dim : List Int
  output_dim : Int
  layers : List Int
  filters : List ConvFilt
  strides : List ConvFilt
  init_functions : List (Option Int)
  act_functions : List (Option Int)
  shapes : List (List Int)
  deriving DecidableEq

/-- One step of `ConvDescriptor.reset_shapes`:
`compute_output(shape, 0, filters[lay], strides[lay])`.  When the stored
entry is one of `random_init`'s `(conv, pool)` tuples, numpy cannot
broadcast `input[:2] - np.array(entry[:2])` (shape `(2,)` against
`(2,3)`, or an object array holding `None`), so the call raises
(`none`); only flat 3-element entries are computable. -/
def computeEntryConv (shape : List Int) : ConvFilt → ConvFilt → Option (List Int)
  | ConvFilt.flat f, ConvFilt.flat st => some (compute_output shape 0 f st)
  | _, _ => none

/-- The `for lay in range(number_hidden_layers)` loop of
`ConvDescriptor.reset_shapes` (lines 310-319); `lay` is the next index,
the `Nat` fuel the remaining iterations.  Indexing `filters[lay]` out of
range raises (`none`). -/
def convResetLoop (filters strides : List ConvFilt) :
    Nat → Nat → List Int → Option (List (List Int))
  | _, 0, _ => some []
  | lay, k+1, shape =>
    match filters.get? lay, strides.get? lay with
    | some f, some st =>
      match computeEntryConv shape f st with
      | some sh => (convResetLoop filters strides (lay+1) k sh).map (sh :: ·)
      | none => none
    | _, _ => none

/-- `ConvDescriptor.reset_shapes()` (lines 310-319). -/
def ConvState.reset_shapes (s : ConvState) : Option ConvState :=
  (convResetLoop s.filters s.strides 0 s.number_hidden_layers.toNat s.input_dim).map
    fun shs => { s with shapes := shs }

/-- The `lay_params` argument of the `add_layer` mutators: stride size,
filter size, activation function, initializer function. -/
structure LayParams where
  p0 : Int
  p1 : Int
  p2 : Option Int
  p3 : Option Int
  deriving DecidableEq

/-- `ConvDescriptor.add_layer(layer_pos, lay_type, lay_params)`
(lines 284-308).  `layers.insert` happens *before* the feasibility test
on `shapes[-1]`.  `chanDraw` is the `np.random.randint(0, 65)` drawn for
a convolutional insertion.  Accessing `shapes[-1]` of an empty cache
raises; so does the `reset_shapes` call of the success branch when a
stored entry is one of `random_init`'s tuples. -/
def ConvState.add_layer (s : ConvState) (layer_pos lay_type : Int)
    (p : LayParams) (chanDraw : Int) : Option (ConvState × Int) :=
  let s1 := { s with layers := pyInsert s.layers layer_pos lay_type }
  if s.shapes = [] then none
  else
    let last := s.shapes.getLastD []
    if 2 < getI last 0 ∧ 2 < getI last 1 then
      let s2 :=
        if lay_type < 2 then
          { s1 with number_hidden_layers := s1.number_hidden_layers + 1,
                    filters := pyInsert s1.filters layer_pos (ConvFilt.flat [p.p1, p.p1, 1]),
                    act_functions := pyInsert s1.act_functions layer_pos none,
                    init_functions := pyInsert s1.init_functions layer_pos none,
                    strides := pyInsert s1.strides layer_pos (ConvFilt.flat [p.p0, p.p0, 1]) }
        else if lay_type = 2 then
          { s1 with number_hidden_layers := s1.number_hidden_layers + 1,
                    strides := pyInsert s1.strides layer_pos (ConvFilt.flat [p.p0, p.p0, 1]),
                    filters := pyInsert s1.filters layer_pos (ConvFilt.flat [p.p1, p.p1, chanDraw]),
                    act_functions := pyInsert s1.act_functions layer_pos p.p2,
                    init_functions := pyInsert s1.init_functions layer_pos p.p3 }
        else { s1 with number_hidden_layers := s1.number_hidden_layers + 1 }
      (s2.reset_shapes).map fun s3 => (s3, 0)
    else some (s1, 1)

/-- `ConvDescriptor.remove_layer(layer_pos)` (lines 321-333): pops the
entry from `filters`, `act_functions`, `init_functions`, `strides`
(but *not* from `layers`), decrements the count and recomputes shapes. -/
def ConvState.remove_layer (s : ConvState) (layer_pos : Int) : Option ConvState :=
  (pyPop s.filters layer_pos).bind fun filters =>
  (pyPop s.act_functions layer_pos).bind fun acts =>
  (pyPop s.init_functions layer_pos).bind fun inits =>
  (pyPop s.strides layer_pos).bind fun strides =>
  ConvState.reset_shapes
    { s with filters := filters, act_functions := acts, init_functions := inits,
             strides := strides, number_hidden_layers := s.number_hidden_layers - 1 }

/-- `ConvDescriptor.remove_random_layer()` (lines 335-345); `idxDraw`
models `np.random.randint(len(self.filters))`, which raises when
`filters` is empty. -/
def ConvState.remove_random_layer (s : ConvState) (idxDraw : Int) :
    Option (ConvState × Int) :=
  if 1 < s.number_hidden_layers then
    if s.filters.length = 0 then none
    else (s.remove_layer idxDraw).map fun s1 => (s1, 0)
  else some (s, -1)

/-- One candidate layer's random draws inside
`ConvDescriptor.random_init`: the kind `np.random.choice([0,1,2])`, the
primary (conv) stride/filter-size/channel draws, the companion pool
draws, and the initializer/activation choices. -/
structure CDraw where
  kind : Int
  cs : Int
  cf : Int
  cch : Int
  ps : Int
  pf : Int
  pch : Int
  ini : Option Int
  ac : Option Int

/-- The loop state of `ConvDescriptor.random_init`. -/
structure CInitAcc where
  layers : List Int
  strides : List ConvFilt
  filters : List ConvFilt
  inits : List (Option Int)
  acts : List (Option Int)
  shapes : List (List Int)
  shape : List Int
  deriving DecidableEq

/-- The rejection test of `ConvDescriptor.random_init` (lines 258, 268):
`shape[0] < 2 or shape[1] < 2 or np.prod(shape) < output_dim`. -/
def convBad (shape : List Int) (outdim : Int) : Bool :=
  decide (getI shape 0 < 2 ∨ getI shape 1 < 2 ∨ prodI shape < outdim)

/-- The `while i < nlayers` loop of `ConvDescriptor.random_init`
(lines 251-279): `i` is the current index, the `Nat` fuel the remaining
iterations.  Returns the final loop state and `some i` when the loop
broke at iteration `i` (rejected candidate; `layers` truncated by
`[:-1]`), `none` when it ran all iterations. -/
def convInitLoop (outdim : Int) (draws : Nat → CDraw) :
    Nat → Nat → CInitAcc → CInitAcc × Option Nat
  | _, 0, a => (a, none)
  | i, k+1, a =>
    let d := draws i
    let layers1 := a.layers ++ [d.kind]
    let convS : List Int := [d.cs, d.cs, 1]
    let convF : List Int := [d.cf, d.cf, d.cch]
    let shape1 := compute_output a.shape 0 convF convS
    if convBad shape1 outdim then
      ({ a with layers := layers1.dropLast }, some i)
    else if d.kind ≠ 2 then
      let poolS : List Int := [d.ps, d.ps, 1]
      let poolF : List Int := [d.pf, d.pf, d.pch]
      let shape2 := compute_output shape1 0 poolF poolS
      if convBad shape2 outdim then
        ({ a with layers := layers1.dropLast }, some i)
      else
        convInitLoop outdim draws (i+1) k
          { layers := layers1,
            strides := a.strides ++ [ConvFilt.pair convS (some poolS)],
            filters := a.filters ++ [ConvFilt.pair convF (some poolF)],
            inits := a.inits ++ [d.ini], acts := a.acts ++ [d.ac],
            shapes := a.shapes ++ [shape2], shape := shape2 }
    else
      convInitLoop outdim draws (i+1) k
        { layers := layers1,
          strides := a.strides ++ [ConvFilt.pair convS none],
          filters := a.filters ++ [ConvFilt.pair convF none],
          inits := a.inits ++ [d.ini], acts := a.acts ++ [d.ac],
          shapes := a.shapes ++ [shape1], shape := shape1 }

/-- `ConvDescriptor.random_init(input_size, output_size, nlayers, _,
max_stride, max_filter, no_drop, no_batch)` (lines 226-282).  `nhlDraw`
models `np.random.randint(nlayers)+1`, which is only kept as
`number_hidden_layers` when the loop never breaks; on a break it is
overwritten with the break iteration index.  `shapes` is appended to (the
method never clears it); `layers`/`filters`/`strides`/choices are reset. -/
def ConvState.random_init (s : ConvState) (input_size : List Int)
    (output_size : Int) (nlayers : Nat) (nhlDraw : Int) (draws : Nat → CDraw) :
    ConvState :=
  let a0 : CInitAcc :=
    { layers := [], strides := [], filters := [], inits := [], acts := [],
      shapes := s.shapes, shape := input_size }
  let r := convInitLoop output_size draws 0 nlayers a0
  { s with input_dim := input_size, output_dim := output_size,
           number_hidden_layers :=
             match r.2 with
             | some i => (i : Int)
             | none => nhlDraw,
           init_functions := r.1.inits, act_functions := r.1.acts,
           layers := r.1.layers, strides := r.1.strides, filters := r.1.filters,
           shapes := r.1.shapes }

/-! ## `TConvDescriptor` (lines 389-540) -/

/-- State of a `TConvDescriptor`: one flat stride/filter triple per
layer, and the `output_shapes` cache (entries of the form
`[-1, h, w, channels]`). -/
structure TConvState where
  number_hidden_layers : Int
  input_dim : List Int
  output_dim : List Int
  filters : List (List Int)
  strides : List (List Int)
  init_functions : List (Option Int)
  act_functions : List (Option Int)
  output_shapes : List (List Int)
  deriving DecidableEq

/-- The `for lay in range(number_hidden_layers)` loop of
`TConvDescriptor.reset_shapes` (lines 470-479). -/
def tconvResetLoop (filters strides : List (List Int)) :
    Nat → Nat → List Int → Option (List (List Int))
  | _, 0, _ => some []
  | lay, k+1, shape =>
    match filters.get? lay, strides.get? lay with
    | some f, some st =>
      let sh := compute_output shape 4 f st
      (tconvResetLoop filters strides (lay+1) k sh).map
        (((-1) :: (sh ++ [getI f 2])) :: ·)
    | _, _ => none

/-- `TConvDescriptor.reset_shapes()` (lines 470-479). -/
def TConvState.reset_shapes (s : TConvState) : Option TConvState :=
  (tconvResetLoop s.filters s.strides 0 s.number_hidden_layers.toNat s.input_dim).map
    fun shs => { s with output_shapes := shs }

/-- `TConvDescriptor.add_layer(layer_pos, lay_params)` (lines 454-468):
unconditionally increments the count, inserts the stride, filter
(channel count drawn by `np.random.randint(0, 65)`, modelled by
`chanDraw`), activation and initializer entries, recomputes the cache
and returns 0. -/
def TConvState.add_layer (s : TConvState) (layer_pos : Int) (p : LayParams)
    (chanDraw : Int) : Option (TConvState × Int) :=
  let s1 := { s with number_hidden_layers := s.number_hidden_layers + 1,
                     strides := pyInsert s.strides layer_pos [p.p0, p.p0, 1],
                     filters := pyInsert s.filters layer_pos [p.p1, p.p1, chanDraw],
                     act_functions := pyInsert s.act_functions layer_pos p.p2,
                     init_functions := pyInsert s.init_functions layer_pos p.p3 }
  (s1.reset_shapes).map fun s2 => (s2, 0)

/-- `TConvDescriptor.remove_layer(layer_pos)` (lines 481-493). -/
def TConvState.remove_layer (s : TConvState) (layer_pos : Int) : Option TConvState :=
  (pyPop s.filters layer_pos).bind fun filters =>
  (pyPop s.act_functions layer_pos).bind fun acts =>
  (pyPop s.init_functions layer_pos).bind fun inits =>
  (pyPop s.strides layer_pos).bind fun strides =>
  TConvState.reset_shapes
    { s with filters := filters, act_functions := acts, init_functions := inits,
             strides := strides, number_hidden_layers := s.number_hidden_layers - 1 }

/-- The per-index test of `TConvDescriptor.remove_random_layer`
(line 503): `number_hidden_layers > 1 and
(output_shapes[-1][1] - 1) / strides[i][0] - filters[i][0] > output_dim[0]`.
Python's `and` short-circuits, so nothing is indexed when the count is
≤ 1; the true division is carried out exactly over `ℚ`. -/
def tconvCheck (s : TConvState) (i : Int) : Option Bool :=
  if s.number_hidden_layers ≤ 1 then some false
  else
    match s.output_shapes.getLast?, pyGet s.strides i, pyGet s.filters i with
    | some last, some st, some f =>
        some (decide ((s.output_dim.getD 0 0 : ℚ) <
          ((getI last 1 : ℚ) - 1) / (getI st 0 : ℚ) - (getI f 0 : ℚ)))
    | _, _, _ => none

/-- The `for layer_pos in layers` loop of
`TConvDescriptor.remove_random_layer` (lines 495-506). -/
def tconvRemoveRandomLoop (s : TConvState) : List Int → Option (TConvState × Int)
  | [] => some (s, -1)
  | i :: rest =>
    match tconvCheck s i with
    | none => none
    | some true => (s.remove_layer i).map fun s1 => (s1, 0)
    | some false => tconvRemoveRandomLoop s rest

/-- `TConvDescriptor.remove_random_layer()` (lines 495-506); `perm`
models the random permutation `np.random.choice(np.arange(0,
len(filters)), size=len(filters), replace=False)`. -/
def TConvState.remove_random_layer (s : TConvState) (perm : List Int) :
    Option (TConvState × Int) :=
  tconvRemoveRandomLoop s perm

/-- `TConvDescriptor.change_activation(layer_pos, new_act_fn)`
(lines 508-509): a bare item assignment, with no bounds check. -/
def TConvState.change_activation (s : TConvState) (layer_pos : Int)
    (new_act_fn : Option Int) : Option TConvState :=
  (pySet s.act_functions layer_pos new_act_fn).map
    fun a => { s with act_functions := a }

/-- `TConvDescriptor.change_weight_init(layer_pos, new_weight_fn)`
(lines 511-512): a bare item assignment, with no bounds check. -/
def TConvState.change_weight_init (s : TConvState) (layer_pos : Int)
    (new_weight_fn : Option Int) : Option TConvState :=
  (pySet s.init_functions layer_pos new_weight_fn).map
    fun a => { s with init_functions := a }

/-- One iteration's random draws inside `TConvDescriptor.random_init`:
the stride draw `randint(1, max_stride)`, the filter-size draw
`randint(2, max_filter)`, the channel draw `randint(3, 65)`, and the
initializer/activation choices. -/
structure TDraw where
  ts : Int
  tf : Int
  tc : Int
  ini : Option Int
  ac : Option Int

/-- The loop state of `TConvDescriptor.random_init`. -/
structure TInitAcc where
  strides : List (List Int)
  filters : List (List Int)
  inits : List (Option Int)
  acts : List (Option Int)
  output_shapes : List (List Int)
  shape : List Int
  deriving DecidableEq

/-- `l[-1] = v` on a nonempty integer list. -/
def setLastI (l : List Int) (v : Int) : List Int := l.set (l.length - 1) v

/-- `filters[-1][2] = v`. -/
def setLastChan (l : List (List Int)) (v : Int) : List (List Int) :=
  l.dropLast ++ [(l.getLastD []).set 2 v]

/-- The `for i in range(300)` loop of `TConvDescriptor.random_init`
(lines 436-449): `i` is the current index, the `Nat` fuel the remaining
iterations.  Returns the final loop state and `some i` when the loop
broke at iteration `i` (target spatial size reached; last channel forced
to `output_dim[2]`), `none` when all 300 iterations ran without a break. -/
def tconvInitLoop (outdim : List Int) (draws : Nat → TDraw) :
    Nat → Nat → TInitAcc → TInitAcc × Option Nat
  | _, 0, a => (a, none)
  | i, k+1, a =>
    let d := draws i
    let st : List Int := [d.ts, d.ts, 1]
    let f : List Int := [d.tf, d.tf, d.tc]
    let sh2 := compute_output (a.shape.drop 1) 4 f st
    let shape1 := (-1) :: (sh2 ++ [d.tc])
    let a1 : TInitAcc :=
      { strides := a.strides ++ [st], filters := a.filters ++ [f],
        inits := a.inits ++ [d.ini], acts := a.acts ++ [d.ac],
        output_shapes := a.output_shapes ++ [shape1], shape := shape1 }
    if getI outdim 0 ≤ getI shape1 1 ∧ getI outdim 1 ≤ getI shape1 2 then
      let shape2 := setLastI shape1 (getI outdim 2)
      ({ a1 with filters := setLastChan a1.filters (getI outdim 2),
                 output_shapes := a1.output_shapes.dropLast ++ [shape2],
                 shape := shape2 }, some i)
    else tconvInitLoop outdim draws (i+1) k a1

/-- `TConvDescriptor.random_init(input_size, output_size, _, __,
max_stride, max_filter, no_drop, no_batch)` (lines 413-452).  The running
shape starts as `[-1] + list(input_size)`; `output_shapes` is appended to
(never cleared by the method); `number_hidden_layers` is only assigned
(to `i+1`) when the loop breaks. -/
def TConvState.random_init (s : TConvState) (input_size output_size : List Int)
    (draws : Nat → TDraw) : TConvState :=
  let a0 : TInitAcc :=
    { strides := [], filters := [], inits := [], acts := [],
      output_shapes := s.output_shapes, shape := (-1) :: input_size }
  let r := tconvInitLoop output_size draws 0 300 a0
  { s with input_dim := input_size, output_dim := output_size,
           strides := r.1.strides, filters := r.1.filters,
           init_functions := r.1.inits, act_functions := r.1.acts,
           output_shapes := r.1.output_shapes,
           number_hidden_layers :=
             match r.2 with
             | some i => (i : Int) + 1
             | none => s.number_hidden_layers }

end EvoFlow

namespace EvoFlow

/-! ## Helper lemmas about the Python/numpy sequence primitives -/

theorem pyIdx_of_nonneg_lt {len : Nat} {i : Int} (h0 : 0 ≤ i) (h : i < (len : Int)) :
    pyIdx len i = some i.toNat := by
  unfold pyIdx
  rw [if_pos ⟨h0, h⟩]

theorem pySet_of_nonneg_lt {l : List α} {i : Int} (v : α) (h0 : 0 ≤ i)
    (h : i < (l.length : Int)) : pySet l i v = some (l.set i.toNat v) := by
  unfold pySet
  rw [pyIdx_of_nonneg_lt h0 h, Option.map_some']

theorem pySet_of_neg {l : List α} {i : Int} (v : α) (h0 : -(l.length : Int) ≤ i)
    (h : i < 0) : pySet l i v = some (l.set ((l.length : Int) + i).toNat v) := by
  unfold pySet pyIdx
  rw [if_neg (by omega), if_pos ⟨h0, h⟩, Option.map_some']

theorem pySet_of_oob {l : List α} {i : Int} (v : α)
    (h : i < -(l.length : Int) ∨ (l.length : Int) ≤ i) : pySet l i v = none := by
  unfold pySet pyIdx
  rw [if_neg (by omega), if_neg (by omega)]
  rfl

theorem pyInsert_of_nonneg_le {l : List α} {i : Int} (v : α) (h0 : 0 ≤ i)
    (h : i ≤ (l.length : Int)) : pyInsert l i v = l.insertIdx i.toNat v := by
  unfold pyInsert pyInsertIdx
  rw [if_neg (by omega)]
  congr 1
  omega

theorem pyInsertIdx_le (len : Nat) (i : Int) : pyInsertIdx len i ≤ len := by
  unfold pyInsertIdx
  split <;> omega

theorem pyInsert_length (l : List α) (i : Int) (v : α) :
    (pyInsert l i v).length = l.length + 1 := by
  unfold pyInsert
  exact List.length_insertIdx _ _ (pyInsertIdx_le l.length i)

theorem pyPop_pyInsert (l : List α) (i : Int) (v : α) (h0 : 0 ≤ i)
    (h : i ≤ (l.length : Int)) : pyPop (pyInsert l i v) i = some l := by
  unfold pyPop
  rw [pyInsert_length, pyIdx_of_nonneg_lt h0 (by push_cast; omega), Option.map_some']
  rw [pyInsert_of_nonneg_le v h0 h, List.eraseIdx_insertIdx]

theorem npInsert_of_nonneg_le {l : List α} {i : Int} (v : α) (h0 : 0 ≤ i)
    (h : i ≤ (l.length : Int)) : npInsert l i v = some (l.insertIdx i.toNat v) := by
  unfold npInsert
  rw [if_neg (show ¬ i < 0 by omega), if_pos ⟨h0, h⟩]

theorem npDelete_of_nonneg_lt {l : List α} {i : Int} (h0 : 0 ≤ i)
    (h : i < (l.length : Int)) : npDelete l i = some (l.eraseIdx i.toNat) := by
  unfold npDelete
  rw [if_neg (show ¬ i < 0 by omega), if_pos ⟨h0, h⟩]

theorem npDelete_insertIdx (l : List α) (i : Int) (v : α) (h0 : 0 ≤ i)
    (h : i ≤ (l.length : Int)) : npDelete (l.insertIdx i.toNat v) i = some l := by
  have hlen : (l.insertIdx i.toNat v).length = l.length + 1 :=
    List.length_insertIdx _ _ (by omega)
  rw [npDelete_of_nonneg_lt h0 (by rw [hlen]; push_cast; omega),
    List.eraseIdx_insertIdx]

/-- `tconvResetLoop` is total when the loop stays within the stored
sequences: `TConvDescriptor`'s filters and strides are always flat
triples, so `compute_output` never fails on them. -/
theorem tconvResetLoop_total (filters strides : List (List Int)) :
    ∀ (k lay : Nat) (shape : List Int), lay + k ≤ filters.length →
      lay + k ≤ strides.length →
      ∃ shs, tconvResetLoop filters strides lay k shape = some shs := by
  intro k
  induction k with
  | zero => intro lay shape _ _; exact ⟨[], rfl⟩
  | succ n ih =>
    intro lay shape hf hs
    have hlf : lay < filters.length := by omega
    have hls : lay < strides.length := by omega
    have hf' : filters.get? lay = some (filters.get ⟨lay, hlf⟩) := List.get?_eq_get hlf
    have hs' : strides.get? lay = some (strides.get ⟨lay, hls⟩) := List.get?_eq_get hls
    obtain ⟨rest, hrest⟩ := ih (lay + 1)
      (compute_output shape 4 (filters.get ⟨lay, hlf⟩) (strides.get ⟨lay, hls⟩))
      (by omega) (by omega)
    refine ⟨((-1) :: (compute_output shape 4 (filters.get ⟨lay, hlf⟩)
      (strides.get ⟨lay, hls⟩) ++ [getI (filters.get ⟨lay, hlf⟩) 2])) :: rest, ?_⟩
    simp only [tconvResetLoop, hf', hs', hrest, Option.map_some']

/-- `convResetLoop` raises (returns `none`) whenever the iteration count
overruns the stored filter sequence. -/
theorem convResetLoop_none_of_short (filters strides : List ConvFilt) :
    ∀ (k lay : Nat) (shape : List Int), filters.length < lay + k →
      lay ≤ filters.length → convResetLoop filters strides lay k shape = none := by
  intro k
  induction k with
  | zero => intro lay shape h h'; omega
  | succ n ih =>
    intro lay shape h h'
    by_cases hlay : lay < filters.length
    · have hf : filters.get? lay = some (filters.get ⟨lay, hlay⟩) := List.get?_eq_get hlay
      cases hst : strides.get? lay with
      | none => simp only [convResetLoop, hf, hst]
      | some st =>
        cases hce : computeEntryConv shape (filters.get ⟨lay, hlay⟩) st with
        | none => simp only [convResetLoop, hf, hst, hce]
        | some sh =>
          simp only [convResetLoop, hf, hst, hce,
            ih (lay + 1) sh (by omega) (by omega), Option.map_none']
    · simp only [convResetLoop,
        List.get?_eq_none.mpr (by omega : filters.length ≤ lay)]

/-- Unfolding of a successful `ConvDescriptor.remove_layer`: the four
parallel sequences lose the popped entry, the count decrements, the
cache is replaced by the recompute.  (`layers` is untouched.) -/
theorem conv_remove_layer_inv {s s' : ConvState} {pos : Int}
    (h : s.remove_layer pos = some s') :
    ∃ fs as is' sts shs,
      pyPop s.filters pos = some fs ∧ pyPop s.act_functions pos = some as ∧
      pyPop s.init_functions pos = some is' ∧ pyPop s.strides pos = some sts ∧
      s' = { s with filters := fs, act_functions := as, init_functions := is',
                    strides := sts, shapes := shs,
                    number_hidden_layers := s.number_hidden_layers - 1 } := by
  simp only [ConvState.remove_layer, ConvState.reset_shapes, Option.bind_eq_some,
    Option.map_eq_some'] at h
  obtain ⟨fs, hf, as, ha, is', hi, sts, hst, shs, hr, hs'⟩ := h
  exact ⟨fs, as, is', sts, shs, hf, ha, hi, hst, hs'.symm⟩

/-- Unfolding of a successful `TConvDescriptor.remove_layer`. -/
theorem tconv_remove_layer_inv {s s' : TConvState} {pos : Int}
    (h : s.remove_layer pos = some s') :
    ∃ fs as is' sts shs,
      pyPop s.filters pos = some fs ∧ pyPop s.act_functions pos = some as ∧
      pyPop s.init_functions pos = some is' ∧ pyPop s.strides pos = some sts ∧
      s' = { s with filters := fs, act_functions := as, init_functions := is',
                    strides := sts, output_shapes := shs,
                    number_hidden_layers := s.number_hidden_layers - 1 } := by
  simp only [TConvState.remove_layer, TConvState.reset_shapes, Option.bind_eq_some,
    Option.map_eq_some'] at h
  obtain ⟨fs, hf, as, ha, is', hi, sts, hst, shs, hr, hs'⟩ := h
  exact ⟨fs, as, is', sts, shs, hf, ha, hi, hst, hs'.symm⟩

/-- C6: for the contractive kinds (`layer_type < 3`: pooling and
convolution) `compute_output` yields, in each spatial dimension,
`max 1 (floor ((input - filter + 1) / stride))` with the filter's channel
entry as output channel count; for the expansive kind (transposed
convolution, `layer_type ≥ 3`) it yields `(input - 1) * stride + filter`
per spatial dimension; and with stride 1 and filter spatial size 1 both
kinds leave the input spatial shape unchanged. -/
theorem compute_output_spec (i0 i1 ic f0 f1 ch s0 s1 sc t : Int) :
    (t < 3 → 0 < s0 → 0 < s1 →
      compute_output [i0, i1, ic] t [f0, f1, ch] [s0, s1, sc] =
        [max 1 ((i0 - f0 + 1).fdiv s0), max 1 ((i1 - f1 + 1).fdiv s1), ch]) ∧
    (3 ≤ t →
      compute_output [i0, i1, ic] t [f0, f1, ch] [s0, s1, sc] =
        [(i0 - 1) * s0 + f0, (i1 - 1) * s1 + f1]) ∧
    (1 ≤ i0 → 1 ≤ i1 → t < 3 →
      compute_output [i0, i1, ic] t [1, 1, ch] [1, 1, sc] = [i0, i1, ch]) ∧
    (1 ≤ i0 → 1 ≤ i1 → 3 ≤ t →
      compute_output [i0, i1, ic] t [1, 1, ch] [1, 1, sc] = [i0, i1]) := by
  have g0 : ∀ a b c : Int, getI [a, b, c] 0 = a := fun _ _ _ => rfl
  have g1 : ∀ a b c : Int, getI [a, b, c] 1 = b := fun _ _ _ => rfl
  have g2 : ∀ a b c : Int, getI [a, b, c] 2 = c := fun _ _ _ => rfl
  refine ⟨fun ht _ _ => ?_, fun ht => ?_, fun h0 h1 ht => ?_, fun h0 h1 ht => ?_⟩
  · rw [compute_output, if_pos ht, g0, g0, g0, g1, g1, g1, g2]
    rw [max_comm _ 1, max_comm _ 1]
  · rw [compute_output, if_neg (not_lt.mpr ht), g0, g0, g0, g1, g1, g1]
  · rw [compute_output, if_pos ht, g0, g0, g0, g1, g1, g1, g2]
    rw [Int.fdiv_one, Int.fdiv_one]
    have e0 : i0 - 1 + 1 = i0 := by ring
    have e1 : i1 - 1 + 1 = i1 := by ring
    rw [e0, e1, max_eq_left h0, max_eq_left h1]
  · rw [compute_output, if_neg (not_lt.mpr ht), g0, g0, g0, g1, g1, g1]
    norm_num

/-- Witness for C6 at the spec's own example: contractive on input
(28,28), filter (3,3,c), stride (1,1) yields spatial shape (26,26), and
the identity cases at stride 1 / filter 1. -/
theorem compute_output_spec_witness :
    compute_output [28, 28, 3] 0 [3, 3, 5] [1, 1, 1] = [26, 26, 5] ∧
    compute_output [28, 28, 3] 0 [1, 1, 5] [1, 1, 1] = [28, 28, 5] ∧
    compute_output [28, 28, 3] 4 [1, 1, 5] [1, 1, 1] = [28, 28] := by
  refine ⟨?_, ?_, ?_⟩
  · have h := (compute_output_spec 28 28 3 3 3 5 1 1 1 0).1 (by decide)
      (by decide) (by decide)
    rw [h]; decide
  · exact (compute_output_spec 28 28 3 1 1 5 1 1 1 0).2.2.1 (by decide)
      (by decide) (by decide)
  · exact (compute_output_spec 28 28 3 1 1 5 1 1 1 4).2.2.2 (by decide)
      (by decide) (by decide)

/-- Python's `list.index` succeeds on any member of the list. -/
theorem listIndex_total {ref : List Int} {x : Int} (h : x ∈ ref) :
    ∃ i, listIndex ref x = some i := by
  induction ref with
  | nil => exact absurd h (List.not_mem_nil x)
  | cons a rest ih =>
    by_cases hax : a = x
    · exact ⟨0, by simp only [listIndex, if_pos hax]⟩
    · have hx : x ∈ rest := by
        rcases List.mem_cons.mp h with h' | h'
        · exact absurd h'.symm hax
        · exact h'
      obtain ⟨i, hi⟩ := ih hx
      exact ⟨i + 1, by simp only [listIndex, if_neg hax, hi, Option.map_some']⟩

/-- The index-translation loops of `codify_components` succeed when every
stored choice occurs in the reference catalog, and preserve length. -/
theorem mapListIndex_total {ref : List Int} :
    ∀ {xs : List Int}, (∀ x ∈ xs, x ∈ ref) →
      ∃ ys, mapListIndex ref xs = some ys ∧ ys.length = xs.length := by
  intro xs
  induction xs with
  | nil => exact fun _ => ⟨[], rfl, rfl⟩
  | cons x rest ih =>
    intro h
    obtain ⟨i, hi⟩ := listIndex_total (h x (List.mem_cons_self x rest))
    obtain ⟨ys, hys, hlen⟩ := ih fun y hy => h y (List.mem_cons_of_mem x hy)
    refine ⟨i :: ys, ?_, by simp [hlen]⟩
    simp only [mapListIndex, hi, hys, Option.some_bind]

/-- C2 (code bug): the genome built by `ConvDescriptor.random_init` on
input (28,28,3), target volume 1, `nlayers = 1`, with the candidate layer
drawn as kind 0 (avg-pool), conv stride 1 / filter 2x2 / 3 channels and
pool stride 1 / filter 2x2 / 3 channels, caches the incrementally built
shape sequence `[[26,26,3]]` (conv then companion pool applied), yet the
full recompute `reset_shapes` raises: it hands the stored
`(conv, pool)` tuple to `compute_output` as if it were one flat filter,
which numpy cannot broadcast — so the recomputed cache cannot equal the
incrementally built one. -/
theorem conv_reset_shapes_cannot_reproduce_random_init_cache :
    (ConvState.random_init ⟨2, [], 0, [], [], [], [], [], []⟩ [28, 28, 3] 1 1 1
        (fun _ => ⟨0, 1, 2, 3, 1, 2, 3, some 1, some 1⟩)).shapes = [[26, 26, 3]] ∧
    (ConvState.random_init ⟨2, [], 0, [], [], [], [], [], []⟩ [28, 28, 3] 1 1 1
        (fun _ => ⟨0, 1, 2, 3, 1, 2, 3, some 1, some 1⟩)).number_hidden_layers = 1 ∧
    (ConvState.random_init ⟨2, [], 0, [], [], [], [], [], []⟩ [28, 28, 3] 1 1 1
        (fun _ => ⟨0, 1, 2, 3, 1, 2, 3, some 1, some 1⟩)).reset_shapes = none := by
  decide

/-- C3 (code bug): `ConvDescriptor.random_init` with `nlayers = 2`, the
`np.random.randint(nlayers)+1` draw equal to 1 and two accepted
convolutional candidates (kind 2, stride 1, filter 2x2, 3 channels, on
input (28,28,3) and target volume 1) leaves `number_hidden_layers = 1`
while `layers`, `filters` and `strides` all have length 2: the
construction loop runs to `nlayers` and only synchronises the drawn layer
count when it breaks early, so the parallel-length invariant fails. -/
theorem conv_random_init_desyncs_parallel_lengths :
    (ConvState.random_init ⟨2, [], 0, [], [], [], [], [], []⟩ [28, 28, 3] 1 2 1
        (fun _ => ⟨2, 1, 2, 3, 1, 2, 3, some 1, some 1⟩)).number_hidden_layers = 1 ∧
    (ConvState.random_init ⟨2, [], 0, [], [], [], [], [], []⟩ [28, 28, 3] 1 2 1
        (fun _ => ⟨2, 1, 2, 3, 1, 2, 3, some 1, some 1⟩)).layers.length = 2 ∧
    (ConvState.random_init ⟨2, [], 0, [], [], [], [], [], []⟩ [28, 28, 3] 1 2 1
        (fun _ => ⟨2, 1, 2, 3, 1, 2, 3, some 1, some 1⟩)).filters.length = 2 ∧
    (ConvState.random_init ⟨2, [], 0, [], [], [], [], [], []⟩ [28, 28, 3] 1 2 1
        (fun _ => ⟨2, 1, 2, 3, 1, 2, 3, some 1, some 1⟩)).strides.length = 2 ∧
    (ConvState.random_init ⟨2, [], 0, [], [], [], [], [], []⟩ [28, 28, 3] 1 2 1
        (fun _ => ⟨2, 1, 2, 3, 1, 2, 3, some 1, some 1⟩)).shapes.length = 2 := by
  decide

/-- C1 counterexample: on a `ConvDescriptor` whose last cached shape is
(2,2,3), `add_layer(0, 0, (1,2,-,-))` returns 1 (failure) but does *not*
leave every field unchanged: `layers` (the layer-kind sequence) has the
requested kind inserted, because the source inserts into `layers` before
performing the feasibility test. -/
theorem conv_add_layer_failure_mutates_layer_kinds :
    ((⟨1, [10, 10, 3], 1, [2], [ConvFilt.flat [2, 2, 3]], [ConvFilt.flat [1, 1, 1]],
        [some 1], [some 1], [[2, 2, 3]]⟩ : ConvState).add_layer 0 0
          ⟨1, 2, none, none⟩ 5).map (fun r => r.2) = some 1 ∧
    ((⟨1, [10, 10, 3], 1, [2], [ConvFilt.flat [2, 2, 3]], [ConvFilt.flat [1, 1, 1]],
        [some 1], [some 1], [[2, 2, 3]]⟩ : ConvState).add_layer 0 0
          ⟨1, 2, none, none⟩ 5).map (fun r => r.1.layers) = some [0, 2] ∧
    [0, 2] ≠ ([2] : List Int) := by
  decide

/-- C4 counterexample: on an `MLPDescriptor` with three hidden layers,
`add_layer` at position 1 inserts a layer, but the immediately following
`remove_layer` at position 1 is a guarded no-op (`layer_pos <= 1`), so
the pair of calls does not restore the parallel sequences. -/
theorem mlp_add_remove_pos1_not_roundtrip :
    ((⟨3, 784, 10, [10, 20, 30], [1, 2, 3, 4], [5, 6, 7, 8], [9, 9, 9, 9]⟩ :
        MLPState).add_layer 1 99 0 0 0).bind (fun s1 => s1.remove_layer 1) =
      some ⟨4, 784, 10, [10, 99, 20, 30], [1, 0, 2, 3, 4], [5, 0, 6, 7, 8],
        [9, 0, 9, 9, 9]⟩ ∧
    (⟨4, 784, 10, [10, 99, 20, 30], [1, 0, 2, 3, 4], [5, 0, 6, 7, 8],
        [9, 0, 9, 9, 9]⟩ : MLPState) ≠
      ⟨3, 784, 10, [10, 20, 30], [1, 2, 3, 4], [5, 6, 7, 8], [9, 9, 9, 9]⟩ := by
  decide

/-- C7 counterexample: `TConvDescriptor.change_activation` has no bounds
check, so the out-of-range position -1 (outside `[0, hidden_layer_count]`)
is *not* a silent no-op: Python's negative indexing overwrites the last
stored activation entry. -/
theorem tconv_change_activation_oob_not_noop :
    (⟨2, [7, 7, 3], [28, 28, 3], [[2, 2, 3], [2, 2, 3]], [[1, 1, 1], [1, 1, 1]],
        [some 1, some 2], [some 3, some 4], [[-1, 8, 8, 3], [-1, 9, 9, 3]]⟩ :
      TConvState).change_activation (-1) (some 9) =
        some ⟨2, [7, 7, 3], [28, 28, 3], [[2, 2, 3], [2, 2, 3]],
          [[1, 1, 1], [1, 1, 1]], [some 1, some 2], [some 3, some 9],
          [[-1, 8, 8, 3], [-1, 9, 9, 3]]⟩ ∧
    [some 3, some 9] ≠ ([some 3, some 4] : List (Option Int)) := by
  decide

/-- C8 counterexample: a `ConvDescriptor` with zero layers (reachable:
`random_init` truncates to zero layers when its first candidate is
rejected) has `hidden_layer_count ≠ 1`, yet `remove_random_layer` returns
-1 and removes nothing, contradicting the claim's `otherwise it removes
exactly one layer and returns 0`. -/
theorem conv_remove_random_layer_zero_layers_returns_failure :
    (⟨0, [28, 28, 3], 1, [], [], [], [], [], []⟩ : ConvState).remove_random_layer 0 =
      some (⟨0, [28, 28, 3], 1, [], [], [], [], [], []⟩, -1) ∧
    (0 : Int) ≠ 1 ∧ (-1 : Int) ≠ 0 := by
  decide

/-- C10: on a well-formed `TConvDescriptor` (stored filter and stride
sequences have exactly `hidden_layer_count` entries), `add_layer` always
returns 0 and always inserts the new stride/filter/activation/initializer
entries and increments `hidden_layer_count`: unlike
`ConvDescriptor.add_layer`, it performs no shape-feasibility check and
has no failure branch. -/
theorem tconv_add_layer_always_succeeds (s : TConvState) (pos : Int)
    (p : LayParams) (rc : Int)
    (hn : 0 ≤ s.number_hidden_layers)
    (hf : s.filters.length = s.number_hidden_layers.toNat)
    (hst : s.strides.length = s.number_hidden_layers.toNat) :
    ∃ shs, s.add_layer pos p rc =
      some ({ s with number_hidden_layers := s.number_hidden_layers + 1,
                     strides := pyInsert s.strides pos [p.p0, p.p0, 1],
                     filters := pyInsert s.filters pos [p.p1, p.p1, rc],
                     act_functions := pyInsert s.act_functions pos p.p2,
                     init_functions := pyInsert s.init_functions pos p.p3,
                     output_shapes := shs }, 0) := by
  obtain ⟨shs, hshs⟩ := tconvResetLoop_total
    (pyInsert s.filters pos [p.p1, p.p1, rc])
    (pyInsert s.strides pos [p.p0, p.p0, 1])
    (s.number_hidden_layers + 1).toNat 0 s.input_dim
    (by rw [pyInsert_length]; omega) (by rw [pyInsert_length]; omega)
  refine ⟨shs, ?_⟩
  simp only [TConvState.add_layer, TConvState.reset_shapes]
  rw [hshs, Option.map_some', Option.map_some']

/-- Witness for C10 on a concrete two-layer descriptor. -/
theorem tconv_add_layer_always_succeeds_witness :
    ∃ shs, (⟨2, [7, 7, 3], [28, 28, 3], [[2, 2, 3], [2, 2, 3]],
        [[1, 1, 1], [1, 1, 1]], [some 1, some 2], [some 3, some 4],
        [[-1, 8, 8, 3], [-1, 9, 9, 3]]⟩ : TConvState).add_layer 1
          ⟨1, 2, some 4, some 5⟩ 7 =
      some ({ (⟨2, [7, 7, 3], [28, 28, 3], [[2, 2, 3], [2, 2, 3]],
          [[1, 1, 1], [1, 1, 1]], [some 1, some 2], [some 3, some 4],
          [[-1, 8, 8, 3], [-1, 9, 9, 3]]⟩ : TConvState) with
            number_hidden_layers := 2 + 1,
            strides := pyInsert [[1, 1, 1], [1, 1, 1]] 1 [1, 1, 1],
            filters := pyInsert [[2, 2, 3], [2, 2, 3]] 1 [2, 2, 7],
            act_functions := pyInsert [some 3, some 4] 1 (some 4),
            init_functions := pyInsert [some 1, some 2] 1 (some 5),
            output_shapes := shs }, 0) :=
  tconv_add_layer_always_succeeds
    ⟨2, [7, 7, 3], [28, 28, 3], [[2, 2, 3], [2, 2, 3]], [[1, 1, 1], [1, 1, 1]],
      [some 1, some 2], [some 3, some 4], [[-1, 8, 8, 3], [-1, 9, 9, 3]]⟩
    1 ⟨1, 2, some 4, some 5⟩ 7 (by decide) (by decide) (by decide)

/-- C9: on an `MLPDescriptor` whose parallel sequences are well-formed
(`dims` of length `hidden_layer_count`, choices of length
`hidden_layer_count + 1`), with `hidden_layer_count ≤ max_layers` and all
choices drawn from the given catalogs, `codify_components` returns the
vector `[hidden_layer_count] + widths + catalog indices of the
initializers + catalog indices of the activations`, each block padded
with sentinel -1 to `max_layers + 1` slots, of total length
`1 + 3*(max_layers + 1)`. -/
theorem mlp_codify_components_spec (s : MLPState) (maxL : Int)
    (ref_init ref_act : List Int)
    (hn : 0 ≤ s.number_hidden_layers)
    (hmax : s.number_hidden_layers ≤ maxL)
    (hd : s.dims.length = s.number_hidden_layers.toNat)
    (hi : s.init_functions.length = s.number_hidden_layers.toNat + 1)
    (ha : s.act_functions.length = s.number_hidden_layers.toNat + 1)
    (hmi : ∀ x ∈ s.init_functions, x ∈ ref_init)
    (hma : ∀ x ∈ s.act_functions, x ∈ ref_act) :
    ∃ auxF auxA,
      mapListIndex ref_init s.init_functions = some auxF ∧
      mapListIndex ref_act s.act_functions = some auxA ∧
      s.codify_components maxL ref_init ref_act =
        some ([s.number_hidden_layers] ++ s.dims
          ++ sentinelPad (maxL + 1 - (s.dims.length : Int))
          ++ auxF ++ sentinelPad (maxL + 1 - (auxF.length : Int))
          ++ auxA ++ sentinelPad (maxL + 1 - (auxA.length : Int))) ∧
      ∀ code, s.codify_components maxL ref_init ref_act = some code →
        (code.length : Int) = 1 + 3 * (maxL + 1) := by
  obtain ⟨auxF, hF, hFlen⟩ := mapListIndex_total hmi
  obtain ⟨auxA, hA, hAlen⟩ := mapListIndex_total hma
  refine ⟨auxF, auxA, hF, hA, ?_, ?_⟩
  · simp only [MLPState.codify_components, hF, hA, Option.some_bind]
  · intro code hcode
    simp only [MLPState.codify_components, hF, hA, Option.some_bind,
      Option.some_inj] at hcode
    rw [← hcode]
    simp only [List.length_append, List.length_cons, List.length_nil,
      sentinelPad, List.length_replicate]
    omega

/-- Witness for C9 on a one-layer descriptor with `max_layers = 2`. -/
theorem mlp_codify_components_spec_witness :
    ∃ auxF auxA,
      mapListIndex [4] [4, 4] = some auxF ∧
      mapListIndex [5, 6] [5, 6] = some auxA ∧
      (⟨1, 2, 3, [7], [4, 4], [5, 6], [1, 1]⟩ : MLPState).codify_components 2 [4] [5, 6] =
        some ([1] ++ [7] ++ sentinelPad (2 + 1 - ((1 : Nat) : Int))
          ++ auxF ++ sentinelPad (2 + 1 - (auxF.length : Int))
          ++ auxA ++ sentinelPad (2 + 1 - (auxA.length : Int))) ∧
      ∀ code, (⟨1, 2, 3, [7], [4, 4], [5, 6], [1, 1]⟩ : MLPState).codify_components
          2 [4] [5, 6] = some code → (code.length : Int) = 1 + 3 * (2 + 1) :=
  mlp_codify_components_spec ⟨1, 2, 3, [7], [4, 4], [5, 6], [1, 1]⟩ 2 [4] [5, 6]
    (by decide) (by decide) (by decide) (by decide) (by decide)
    (by decide) (by decide)

/-- C7 (amended): for the base-class implementation (inherited by
`MLPDescriptor` and `ConvDescriptor`) of `change_activation` and
`change_weight_init`, an out-of-range position (`pos < 0` or
`pos > hidden_layer_count`) is a silent no-op, and an in-range position
overwrites the entry at `pos` whenever the stored sequence has
`hidden_layer_count + 1` entries (the MLP invariant).
`TConvDescriptor`'s overrides instead perform the bare item assignment
with no bounds check: any position that is a valid (possibly negative)
Python index overwrites an entry — in particular negative positions,
which are outside `[0, hidden_layer_count]`, overwrite counting from the
end — and any other position raises `IndexError`. -/
theorem change_activation_weight_init_spec :
    (∀ (α : Type) (n : Int) (fs : List α) (pos : Int) (f : α),
       fs.length = n.toNat + 1 → 0 ≤ pos → pos ≤ n →
       changeActivationBase n fs pos f = some (fs.set pos.toNat f) ∧
       changeWeightInitBase n fs pos f = some (fs.set pos.toNat f)) ∧
    (∀ (α : Type) (n : Int) (fs : List α) (pos : Int) (f : α),
       (pos < 0 ∨ n < pos) →
       changeActivationBase n fs pos f = some fs ∧
       changeWeightInitBase n fs pos f = some fs) ∧
    (∀ (s : TConvState) (pos : Int) (f g : Option Int),
       (0 ≤ pos → pos < (s.act_functions.length : Int) →
          s.change_activation pos f =
            some { s with act_functions := s.act_functions.set pos.toNat f }) ∧
       (-(s.act_functions.length : Int) ≤ pos → pos < 0 →
          s.change_activation pos f =
            some { s with act_functions :=
              s.act_functions.set ((s.act_functions.length : Int) + pos).toNat f }) ∧
       ((pos < -(s.act_functions.length : Int) ∨ (s.act_functions.length : Int) ≤ pos) →
          s.change_activation pos f = none) ∧
       (0 ≤ pos → pos < (s.init_functions.length : Int) →
          s.change_weight_init pos g =
            some { s with init_functions := s.init_functions.set pos.toNat g }) ∧
       (-(s.init_functions.length : Int) ≤ pos → pos < 0 →
          s.change_weight_init pos g =
            some { s with init_functions :=
              s.init_functions.set ((s.init_functions.length : Int) + pos).toNat g }) ∧
       ((pos < -(s.init_functions.length : Int) ∨ (s.init_functions.length : Int) ≤ pos) →
          s.change_weight_init pos g = none)) := by
  refine ⟨?_, ?_, ?_⟩
  · intro α n fs pos f hlen h0 hn
    have hlt : pos < (fs.length : Int) := by omega
    constructor
    · simp only [changeActivationBase, if_neg (by omega : ¬(pos < 0 ∨ pos > n))]
      exact pySet_of_nonneg_lt f h0 hlt
    · simp only [changeWeightInitBase, if_neg (by omega : ¬(pos < 0 ∨ pos > n))]
      exact pySet_of_nonneg_lt f h0 hlt
  · intro α n fs pos f hoob
    have h' : pos < 0 ∨ pos > n := by omega
    exact ⟨by simp only [changeActivationBase, if_pos h'],
           by simp only [changeWeightInitBase, if_pos h']⟩
  · intro s pos f g
    refine ⟨fun h0 hlt => ?_, fun hge hneg => ?_, fun hoob => ?_,
            fun h0 hlt => ?_, fun hge hneg => ?_, fun hoob => ?_⟩
    · simp only [TConvState.change_activation, pySet_of_nonneg_lt f h0 hlt,
        Option.map_some']
    · simp only [TConvState.change_activation, pySet_of_neg f hge hneg,
        Option.map_some']
    · simp only [TConvState.change_activation, pySet_of_oob f hoob,
        Option.map_none']
    · simp only [TConvState.change_weight_init, pySet_of_nonneg_lt g h0 hlt,
        Option.map_some']
    · simp only [TConvState.change_weight_init, pySet_of_neg g hge hneg,
        Option.map_some']
    · simp only [TConvState.change_weight_init, pySet_of_oob g hoob,
        Option.map_none']

/-- Witness for C7: base-class in-range overwrite and out-of-range no-op
at concrete inputs, and `TConvDescriptor`'s unchecked negative-index
overwrite. -/
theorem change_activation_weight_init_spec_witness :
    (changeActivationBase 1 [10, 20] 1 (30 : Int) = some [10, 30] ∧
     changeWeightInitBase 1 [10, 20] 1 (30 : Int) = some [10, 30]) ∧
    (changeActivationBase 1 [10, 20] 2 (30 : Int) = some [10, 20] ∧
     changeWeightInitBase 1 [10, 20] 2 (30 : Int) = some [10, 20]) ∧
    (⟨2, [7, 7, 3], [28, 28, 3], [[2, 2, 3], [2, 2, 3]], [[1, 1, 1], [1, 1, 1]],
        [some 1, some 2], [some 3, some 4], [[-1, 8, 8, 3], [-1, 9, 9, 3]]⟩ :
      TConvState).change_activation (-1) (some 9) =
        some { (⟨2, [7, 7, 3], [28, 28, 3], [[2, 2, 3], [2, 2, 3]],
            [[1, 1, 1], [1, 1, 1]], [some 1, some 2], [some 3, some 4],
            [[-1, 8, 8, 3], [-1, 9, 9, 3]]⟩ : TConvState) with
          act_functions := ([some 3, some 4] : List (Option Int)).set
            (((2 : Nat) : Int) + (-1)).toNat (some 9) } := by
  refine ⟨?_, ?_, ?_⟩
  · have h := (change_activation_weight_init_spec.1 Int 1 [10, 20] 1 30
      (by decide) (by decide) (by decide))
    exact ⟨h.1.trans (by decide), h.2.trans (by decide)⟩
  · exact (change_activation_weight_init_spec.2.1 Int 1 [10, 20] 2 30
      (Or.inr (by decide)))
  · exact (change_activation_weight_init_spec.2.2
      ⟨2, [7, 7, 3], [28, 28, 3], [[2, 2, 3], [2, 2, 3]], [[1, 1, 1], [1, 1, 1]],
        [some 1, some 2], [some 3, some 4], [[-1, 8, 8, 3], [-1, 9, 9, 3]]⟩
      (-1) (some 9) (some 0)).2.1 (by decide) (by decide)

/-- A true feasibility check inside `TConvDescriptor.remove_random_layer`
implies more than one stored layer (Python's `and` evaluates
`number_hidden_layers > 1` first). -/
theorem tconvCheck_true_count {s : TConvState} {i : Int}
    (h : tconvCheck s i = some true) : 1 < s.number_hidden_layers := by
  by_contra hle
  have : tconvCheck s i = some false := by
    simp only [tconvCheck, if_pos (by omega : s.number_hidden_layers ≤ 1)]
  rw [this] at h
  exact absurd (Option.some_inj.mp h) (by decide)

/-- The scan loop of `TConvDescriptor.remove_random_layer` returns
`(s, -1)` when every examined index fails the feasibility check. -/
theorem tconvRemoveRandomLoop_all_false {s : TConvState} :
    ∀ perm : List Int, (∀ i ∈ perm, tconvCheck s i = some false) →
      tconvRemoveRandomLoop s perm = some (s, -1) := by
  intro perm
  induction perm with
  | nil => intro _; rfl
  | cons i rest ih =>
    intro h
    simp only [tconvRemoveRandomLoop, h i (List.mem_cons_self i rest)]
    exact ih fun j hj => h j (List.mem_cons_of_mem i hj)

/-- Characterisation of any normal return of the scan loop of
`TConvDescriptor.remove_random_layer`: either nothing was removed and -1
is returned, or the count exceeded 1, exactly one layer was removed and 0
is returned. -/
theorem tconvRemoveRandomLoop_inv {s : TConvState} :
    ∀ (perm : List Int) (s' : TConvState) (r : Int),
      tconvRemoveRandomLoop s perm = some (s', r) →
      (r = -1 ∧ s' = s) ∨
      (r = 0 ∧ s'.number_hidden_layers = s.number_hidden_layers - 1 ∧
        1 < s.number_hidden_layers) := by
  intro perm
  induction perm with
  | nil =>
    intro s' r h
    obtain ⟨h1, h2⟩ := Prod.mk.injEq .. ▸ Option.some_inj.mp h
    exact Or.inl ⟨h2.symm, h1.symm⟩
  | cons i rest ih =>
    intro s' r h
    rcases hc : tconvCheck s i with _ | b
    · rw [tconvRemoveRandomLoop, hc] at h
      exact absurd h (by simp)
    cases b
    · rw [tconvRemoveRandomLoop, hc] at h
      exact ih s' r h
    · rw [tconvRemoveRandomLoop, hc] at h
      obtain ⟨s1, hs1, heq⟩ := Option.map_eq_some'.mp h
      obtain ⟨h1, h2⟩ := Prod.mk.injEq .. ▸ heq
      obtain ⟨_, _, _, _, _, _, _, _, _, hrec⟩ := tconv_remove_layer_inv hs1
      refine Or.inr ⟨h2.symm, ?_, tconvCheck_true_count hc⟩
      rw [← h1, hrec]

/-- C8 (amended): `remove_random_layer` never reduces
`hidden_layer_count` below 1.  For `ConvDescriptor`: whenever
`hidden_layer_count ≤ 1` (not only when it equals 1) it returns -1 and
removes nothing, and any successful return either is that failure or
removed exactly one layer from a count exceeding 1, returning 0.  For
`TConvDescriptor`: when `hidden_layer_count ≤ 1`, or when no examined
index passes the reachability check, it returns -1 and removes nothing;
any successful return either is that failure or removed exactly one
layer from a count exceeding 1, returning 0. -/
theorem remove_random_layer_spec :
    (∀ (s : ConvState) (idx : Int), s.number_hidden_layers ≤ 1 →
       s.remove_random_layer idx = some (s, -1)) ∧
    (∀ (s : ConvState) (idx : Int) (s' : ConvState) (r : Int),
       s.remove_random_layer idx = some (s', r) →
       (r = -1 ∧ s' = s ∧ s.number_hidden_layers ≤ 1) ∨
       (r = 0 ∧ s'.number_hidden_layers = s.number_hidden_layers - 1 ∧
         1 < s.number_hidden_layers ∧ 1 ≤ s'.number_hidden_layers)) ∧
    (∀ (s : TConvState) (perm : List Int), s.number_hidden_layers ≤ 1 →
       s.remove_random_layer perm = some (s, -1)) ∧
    (∀ (s : TConvState) (perm : List Int),
       (∀ i ∈ perm, tconvCheck s i = some false) →
       s.remove_random_layer perm = some (s, -1)) ∧
    (∀ (s : TConvState) (perm : List Int) (s' : TConvState) (r : Int),
       s.remove_random_layer perm = some (s', r) →
       (r = -1 ∧ s' = s) ∨
       (r = 0 ∧ s'.number_hidden_layers = s.number_hidden_layers - 1 ∧
         1 < s.number_hidden_layers ∧ 1 ≤ s'.number_hidden_layers)) := by
  refine ⟨?_, ?_, ?_, ?_, ?_⟩
  · intro s idx hle
    simp only [ConvState.remove_random_layer, if_neg (by omega : ¬1 < s.number_hidden_layers)]
  · intro s idx s' r h
    by_cases hgt : 1 < s.number_hidden_layers
    · rw [ConvState.remove_random_layer, if_pos hgt] at h
      by_cases hz : s.filters.length = 0
      · rw [if_pos hz] at h
        exact absurd h (by simp)
      · rw [if_neg hz] at h
        obtain ⟨s1, hs1, heq⟩ := Option.map_eq_some'.mp h
        obtain ⟨h1, h2⟩ := Prod.mk.injEq .. ▸ heq
        obtain ⟨_, _, _, _, _, _, _, _, _, hrec⟩ := conv_remove_layer_inv hs1
        refine Or.inr ⟨h2.symm, ?_, hgt, ?_⟩
        · rw [← h1, hrec]
        · rw [← h1, hrec]
          simp only []
          omega
    · rw [ConvState.remove_random_layer, if_neg hgt] at h
      obtain ⟨h1, h2⟩ := Prod.mk.injEq .. ▸ Option.some_inj.mp h
      exact Or.inl ⟨h2.symm, h1.symm, by omega⟩
  · intro s perm hle
    exact tconvRemoveRandomLoop_all_false perm fun i _ => by
      simp only [tconvCheck, if_pos hle]
  · intro s perm hall
    exact tconvRemoveRandomLoop_all_false perm hall
  · intro s perm s' r h
    rcases tconvRemoveRandomLoop_inv perm s' r h with h' | ⟨h0, hcnt, hgt⟩
    · exact Or.inl h'
    · exact Or.inr ⟨h0, hcnt, hgt, by omega⟩

/-- Witness for C8: the failure branch on a single-layer descriptor and
the success branch on a two-layer descriptor, at concrete inputs. -/
theorem remove_random_layer_spec_witness :
    (⟨1, [28, 28, 3], 1, [2], [ConvFilt.flat [2, 2, 3]], [ConvFilt.flat [1, 1, 1]],
        [some 1], [some 1], [[27, 27, 3]]⟩ : ConvState).remove_random_layer 0 =
      some (⟨1, [28, 28, 3], 1, [2], [ConvFilt.flat [2, 2, 3]],
        [ConvFilt.flat [1, 1, 1]], [some 1], [some 1], [[27, 27, 3]]⟩, -1) ∧
    (⟨1, [7, 7, 3], [28, 28, 3], [[2, 2, 3]], [[1, 1, 1]], [some 1], [some 1],
        [[-1, 8, 8, 3]]⟩ : TConvState).remove_random_layer [0] =
      some (⟨1, [7, 7, 3], [28, 28, 3], [[2, 2, 3]], [[1, 1, 1]], [some 1], [some 1],
        [[-1, 8, 8, 3]]⟩, -1) := by
  constructor
  · exact remove_random_layer_spec.1
      ⟨1, [28, 28, 3], 1, [2], [ConvFilt.flat [2, 2, 3]], [ConvFilt.flat [1, 1, 1]],
        [some 1], [some 1], [[27, 27, 3]]⟩ 0 (by decide)
  · exact remove_random_layer_spec.2.2.1
      ⟨1, [7, 7, 3], [28, 28, 3], [[2, 2, 3]], [[1, 1, 1]], [some 1], [some 1],
        [[-1, 8, 8, 3]]⟩ [0] (by decide)

/-- C1 (amended): provided the shape cache is nonempty (the source
indexes `shapes[-1]` unconditionally), `ConvDescriptor.add_layer` returns
0 exactly when the last cached shape has both spatial dimensions > 2.
When the test fails it returns 1, and every field is unchanged *except*
`layers` (the layer_kinds sequence), which keeps the requested kind
inserted at `pos` (the source inserts before testing).  When the test
passes and the post-insertion shape recompute succeeds (all stored
entries flat, as `reset_shapes` requires), it inserts the
kind-appropriate filter/stride/activation/initializer entries at `pos`,
increments `hidden_layer_count` and replaces the shape cache with the
recompute. -/
theorem conv_add_layer_spec (s : ConvState) (pos kind : Int) (p : LayParams)
    (rc : Int) (hne : s.shapes ≠ []) :
    (¬(2 < getI (s.shapes.getLastD []) 0 ∧ 2 < getI (s.shapes.getLastD []) 1) →
       s.add_layer pos kind p rc =
         some ({ s with layers := pyInsert s.layers pos kind }, 1)) ∧
    ((2 < getI (s.shapes.getLastD []) 0 ∧ 2 < getI (s.shapes.getLastD []) 1) →
     kind < 2 →
     ∀ shs, convResetLoop (pyInsert s.filters pos (ConvFilt.flat [p.p1, p.p1, 1]))
         (pyInsert s.strides pos (ConvFilt.flat [p.p0, p.p0, 1])) 0
         (s.number_hidden_layers + 1).toNat s.input_dim = some shs →
       s.add_layer pos kind p rc =
         some ({ s with layers := pyInsert s.layers pos kind,
                        number_hidden_layers := s.number_hidden_layers + 1,
                        filters := pyInsert s.filters pos (ConvFilt.flat [p.p1, p.p1, 1]),
                        act_functions := pyInsert s.act_functions pos none,
                        init_functions := pyInsert s.init_functions pos none,
                        strides := pyInsert s.strides pos (ConvFilt.flat [p.p0, p.p0, 1]),
                        shapes := shs }, 0)) ∧
    ((2 < getI (s.shapes.getLastD []) 0 ∧ 2 < getI (s.shapes.getLastD []) 1) →
     kind = 2 →
     ∀ shs, convResetLoop (pyInsert s.filters pos (ConvFilt.flat [p.p1, p.p1, rc]))
         (pyInsert s.strides pos (ConvFilt.flat [p.p0, p.p0, 1])) 0
         (s.number_hidden_layers + 1).toNat s.input_dim = some shs →
       s.add_layer pos kind p rc =
         some ({ s with layers := pyInsert s.layers pos kind,
                        number_hidden_layers := s.number_hidden_layers + 1,
                        strides := pyInsert s.strides pos (ConvFilt.flat [p.p0, p.p0, 1]),
                        filters := pyInsert s.filters pos (ConvFilt.flat [p.p1, p.p1, rc]),
                        act_functions := pyInsert s.act_functions pos p.p2,
                        init_functions := pyInsert s.init_functions pos p.p3,
                        shapes := shs }, 0)) := by
  refine ⟨fun hbad => ?_, fun hgood hlt shs hrl => ?_, fun hgood heq shs hrl => ?_⟩
  · simp only [ConvState.add_layer]
    rw [if_neg hne, if_neg hbad]
  · simp only [ConvState.add_layer, ConvState.reset_shapes]
    rw [if_neg hne, if_pos hgood, if_pos hlt, hrl, Option.map_some', Option.map_some']
  · have hnlt : ¬kind < 2 := by omega
    simp only [ConvState.add_layer, ConvState.reset_shapes]
    rw [if_neg hne, if_pos hgood, if_neg hnlt, if_pos heq, hrl, Option.map_some',
      Option.map_some']

/-- Witness for C1: the failure branch mutating only `layers`, and a
successful convolutional insertion, at concrete inputs. -/
theorem conv_add_layer_spec_witness :
    (⟨1, [10, 10, 3], 1, [2], [ConvFilt.flat [2, 2, 3]], [ConvFilt.flat [1, 1, 1]],
        [some 1], [some 1], [[2, 2, 3]]⟩ : ConvState).add_layer 0 0
          ⟨1, 2, none, none⟩ 5 =
      some ({ (⟨1, [10, 10, 3], 1, [2], [ConvFilt.flat [2, 2, 3]],
          [ConvFilt.flat [1, 1, 1]], [some 1], [some 1], [[2, 2, 3]]⟩ : ConvState) with
            layers := pyInsert [2] 0 0 }, 1) ∧
    (⟨1, [10, 10, 3], 1, [2], [ConvFilt.flat [2, 2, 3]], [ConvFilt.flat [1, 1, 1]],
        [some 1], [some 1], [[9, 9, 3]]⟩ : ConvState).add_layer 0 2
          ⟨1, 2, some 4, some 5⟩ 7 =
      some ({ (⟨1, [10, 10, 3], 1, [2], [ConvFilt.flat [2, 2, 3]],
          [ConvFilt.flat [1, 1, 1]], [some 1], [some 1], [[9, 9, 3]]⟩ : ConvState) with
            layers := pyInsert [2] 0 2,
            number_hidden_layers := 1 + 1,
            strides := pyInsert [ConvFilt.flat [1, 1, 1]] 0 (ConvFilt.flat [1, 1, 1]),
            filters := pyInsert [ConvFilt.flat [2, 2, 3]] 0 (ConvFilt.flat [2, 2, 7]),
            act_functions := pyInsert [some 1] 0 (some 4),
            init_functions := pyInsert [some 1] 0 (some 5),
            shapes := [[9, 9, 7], [8, 8, 3]] }, 0) := by
  constructor
  · exact (conv_add_layer_spec
      ⟨1, [10, 10, 3], 1, [2], [ConvFilt.flat [2, 2, 3]], [ConvFilt.flat [1, 1, 1]],
        [some 1], [some 1], [[2, 2, 3]]⟩ 0 0 ⟨1, 2, none, none⟩ 5 (by decide)).1
      (by decide)
  · exact (conv_add_layer_spec
      ⟨1, [10, 10, 3], 1, [2], [ConvFilt.flat [2, 2, 3]], [ConvFilt.flat [1, 1, 1]],
        [some 1], [some 1], [[9, 9, 3]]⟩ 0 2 ⟨1, 2, some 4, some 5⟩ 7
      (by decide)).2.2 (by decide) (by decide) [[9, 9, 7], [8, 8, 3]] (by decide)

/-- C4 (amended): `add_layer` immediately followed by `remove_layer` at
the same position is a round trip only with provisos.  For
`MLPDescriptor` (well-formed parallel sequences) it restores the whole
state when `2 ≤ pos < hidden_layer_count`; at `pos ∈ {0, 1}` the
`remove_layer` guard makes the removal a no-op, so the pair is not a
round trip there.  For `ConvDescriptor` (well-formed sequences,
`0 ≤ pos ≤ hidden_layer_count`, a successful insertion, and a shape
recompute that succeeds on the original genome), the pair restores
`filters`, `strides`, `act_functions`, `init_functions` and
`hidden_layer_count`, and recomputes the shape cache — but *not*
`layers`: `ConvDescriptor.remove_layer` never pops the layer_kinds
entry, so the inserted kind survives the round trip. -/
theorem add_remove_roundtrip_spec :
    (∀ (s : MLPState) (pos v iw ia dp : Int),
       s.dims.length = s.number_hidden_layers.toNat →
       s.init_functions.length = s.number_hidden_layers.toNat + 1 →
       s.act_functions.length = s.number_hidden_layers.toNat + 1 →
       s.dropout_probs.length = s.number_hidden_layers.toNat + 1 →
       2 ≤ pos → pos < s.number_hidden_layers →
       (s.add_layer pos v iw ia dp).bind (fun s1 => s1.remove_layer pos) = some s) ∧
    (∀ (s : ConvState) (pos kind : Int) (p : LayParams) (rc : Int)
       (smid : ConvState) (shs : List (List Int)),
       s.filters.length = s.number_hidden_layers.toNat →
       s.strides.length = s.number_hidden_layers.toNat →
       s.act_functions.length = s.number_hidden_layers.toNat →
       s.init_functions.length = s.number_hidden_layers.toNat →
       0 ≤ s.number_hidden_layers → 0 ≤ pos → pos ≤ s.number_hidden_layers →
       s.add_layer pos kind p rc = some (smid, 0) →
       convResetLoop s.filters s.strides 0 s.number_hidden_layers.toNat
         s.input_dim = some shs →
       smid.remove_layer pos =
         some { s with layers := pyInsert s.layers pos kind, shapes := shs }) := by
  constructor
  · intro s pos v iw ia dp hd hi ha hp h2 hlt
    have h0 : (0 : Int) ≤ pos := by omega
    simp only [MLPState.add_layer,
      if_neg (show ¬(pos < 0 ∨ pos ≥ s.number_hidden_layers) by omega)]
    rw [npInsert_of_nonneg_le v h0 (by omega),
      npInsert_of_nonneg_le iw h0 (by omega),
      npInsert_of_nonneg_le ia h0 (by omega),
      npInsert_of_nonneg_le dp h0 (by omega)]
    simp only [Option.some_bind, MLPState.remove_layer,
      if_neg (show ¬(pos ≤ 1 ∨ pos > s.number_hidden_layers + 1) by omega)]
    rw [npDelete_insertIdx s.dims pos v h0 (by omega),
      npDelete_insertIdx s.init_functions pos iw h0 (by omega),
      npDelete_insertIdx s.act_functions pos ia h0 (by omega),
      npDelete_insertIdx s.dropout_probs pos dp h0 (by omega)]
    simp only [Option.some_bind, Option.some_inj]
    have e : s.number_hidden_layers + 1 - 1 = s.number_hidden_layers := by ring
    rw [e]
  · intro s pos kind p rc smid shs hfl hstl hal hil hn h0 hle hadd hres
    by_cases hsh : s.shapes = []
    · rw [ConvState.add_layer, if_pos hsh] at hadd
      exact absurd hadd (by simp)
    by_cases hgood : 2 < getI (s.shapes.getLastD []) 0 ∧
        2 < getI (s.shapes.getLastD []) 1
    swap
    · simp only [ConvState.add_layer] at hadd
      rw [if_neg hsh, if_neg hgood] at hadd
      simp only [Option.some_inj, Prod.mk.injEq] at hadd
      exact absurd hadd.2 (by decide)
    have hppos : pos ≤ (s.filters.length : Int) := by omega
    have e1 : s.number_hidden_layers + 1 - 1 = s.number_hidden_layers := by ring
    rcases lt_trichotomy kind 2 with hk | hk | hk
    · simp only [ConvState.add_layer, ConvState.reset_shapes] at hadd
      rw [if_neg hsh, if_pos hgood, if_pos hk] at hadd
      obtain ⟨s3, hs3, heq⟩ := Option.map_eq_some'.mp hadd
      obtain ⟨shs1, hloop, hs3eq⟩ := Option.map_eq_some'.mp hs3
      obtain ⟨hsm, -⟩ := Prod.mk.injEq .. ▸ heq
      rw [← hsm, ← hs3eq]
      simp only [ConvState.remove_layer]
      rw [pyPop_pyInsert s.filters pos _ h0 (by omega),
        pyPop_pyInsert s.act_functions pos _ h0 (by omega),
        pyPop_pyInsert s.init_functions pos _ h0 (by omega),
        pyPop_pyInsert s.strides pos _ h0 (by omega)]
      simp only [Option.some_bind, ConvState.reset_shapes, e1]
      rw [hres, Option.map_some']
    · simp only [ConvState.add_layer, ConvState.reset_shapes] at hadd
      rw [if_neg hsh, if_pos hgood, if_neg (show ¬kind < 2 by omega),
        if_pos hk] at hadd
      obtain ⟨s3, hs3, heq⟩ := Option.map_eq_some'.mp hadd
      obtain ⟨shs1, hloop, hs3eq⟩ := Option.map_eq_some'.mp hs3
      obtain ⟨hsm, -⟩ := Prod.mk.injEq .. ▸ heq
      rw [← hsm, ← hs3eq]
      simp only [ConvState.remove_layer]
      rw [pyPop_pyInsert s.filters pos _ h0 (by omega),
        pyPop_pyInsert s.act_functions pos _ h0 (by omega),
        pyPop_pyInsert s.init_functions pos _ h0 (by omega),
        pyPop_pyInsert s.strides pos _ h0 (by omega)]
      simp only [Option.some_bind, ConvState.reset_shapes, e1]
      rw [hres, Option.map_some']
    · simp only [ConvState.add_layer, ConvState.reset_shapes] at hadd
      rw [if_neg hsh, if_pos hgood, if_neg (show ¬kind < 2 by omega),
        if_neg (show ¬kind = 2 by omega)] at hadd
      rw [convResetLoop_none_of_short s.filters s.strides
        (s.number_hidden_layers + 1).toNat 0 s.input_dim (by omega) (by omega)] at hadd
      exact absurd hadd (by simp)

/-- Witness for C4: the MLP round trip at position 2 of a three-layer
descriptor, and the Conv round trip (layer_kinds excepted) at position 0
of a one-layer descriptor, at concrete inputs. -/
theorem add_remove_roundtrip_spec_witness :
    ((⟨3, 784, 10, [10, 20, 30], [1, 2, 3, 4], [5, 6, 7, 8], [9, 9, 9, 9]⟩ :
        MLPState).add_layer 2 99 0 0 0).bind (fun s1 => s1.remove_layer 2) =
      some ⟨3, 784, 10, [10, 20, 30], [1, 2, 3, 4], [5, 6, 7, 8], [9, 9, 9, 9]⟩ ∧
    (⟨2, [10, 10, 3], 1, [2, 2], [ConvFilt.flat [2, 2, 7], ConvFilt.flat [2, 2, 3]],
        [ConvFilt.flat [1, 1, 1], ConvFilt.flat [1, 1, 1]], [some 5, some 1],
        [some 4, some 1], [[9, 9, 7], [8, 8, 3]]⟩ : ConvState).remove_layer 0 =
      some { (⟨1, [10, 10, 3], 1, [2], [ConvFilt.flat [2, 2, 3]],
          [ConvFilt.flat [1, 1, 1]], [some 1], [some 1], [[9, 9, 3]]⟩ :
        ConvState) with layers := pyInsert [2] 0 2, shapes := [[9, 9, 3]] } := by
  constructor
  · exact add_remove_roundtrip_spec.1
      ⟨3, 784, 10, [10, 20, 30], [1, 2, 3, 4], [5, 6, 7, 8], [9, 9, 9, 9]⟩
      2 99 0 0 0 (by decide) (by decide) (by decide) (by decide) (by decide)
      (by decide)
  · exact add_remove_roundtrip_spec.2
      ⟨1, [10, 10, 3], 1, [2], [ConvFilt.flat [2, 2, 3]], [ConvFilt.flat [1, 1, 1]],
        [some 1], [some 1], [[9, 9, 3]]⟩ 0 2 ⟨1, 2, some 4, some 5⟩ 7
      ⟨2, [10, 10, 3], 1, [2, 2], [ConvFilt.flat [2, 2, 7], ConvFilt.flat [2, 2, 3]],
        [ConvFilt.flat [1, 1, 1], ConvFilt.flat [1, 1, 1]], [some 5, some 1],
        [some 4, some 1], [[9, 9, 7], [8, 8, 3]]⟩
      [[9, 9, 3]] (by decide) (by decide) (by decide) (by decide) (by decide)
      (by decide) (by decide) (by decide) (by decide)

/-- The construction loop of `TConvDescriptor.random_init`, aimed at
target (28,28,3), breaks within its fuel whenever the running shape is
square with spatial size `d ≥ 1` and the fuel is at least `28 - d` (and
positive): every drawn stride is ≥ 1 and every drawn filter size is ≥ 2,
so each iteration grows the spatial size by at least 1.  On the break the
final filter's channel entry has been forced to 3 and the last cached
shape is `[-1, d', d', 3]` with `d' ≥ 28`. -/
theorem tconvInitLoop_breaks (draws : Nat → TDraw)
    (hs : ∀ n, 1 ≤ (draws n).ts) (hf : ∀ n, 2 ≤ (draws n).tf) :
    ∀ (fuel i : Nat) (a : TInitAcc) (d : Int) (rest : List Int),
      a.shape = (-1) :: d :: d :: rest →
      1 ≤ d → (28 : Int) ≤ d + fuel → 1 ≤ fuel →
      ∃ j : Nat, i ≤ j ∧ j < i + fuel ∧
        (tconvInitLoop [28, 28, 3] draws i fuel a).2 = some j ∧
        ((tconvInitLoop [28, 28, 3] draws i fuel a).1.filters.getLastD []).getD 2 0 = 3 ∧
        28 ≤ ((tconvInitLoop [28, 28, 3] draws i fuel a).1.output_shapes.getLastD []).getD 1 0 ∧
        28 ≤ ((tconvInitLoop [28, 28, 3] draws i fuel a).1.output_shapes.getLastD []).getD 2 0 := by
  intro fuel
  induction fuel with
  | zero => intro i a d rest hsh hd hdf h1; omega
  | succ n ih =>
    intro i a d rest hsh hd hdf h1
    have hstep : d + 1 ≤ (d - 1) * (draws i).ts + (draws i).tf := by
      have h1' := hs i
      have h2' := hf i
      nlinarith
    have hdrop : a.shape.drop 1 = d :: d :: rest := by rw [hsh]; rfl
    have hsh2 : compute_output (a.shape.drop 1) 4
        [(draws i).tf, (draws i).tf, (draws i).tc]
        [(draws i).ts, (draws i).ts, 1] =
        [(d - 1) * (draws i).ts + (draws i).tf,
         (d - 1) * (draws i).ts + (draws i).tf] := by
      rw [hdrop]
      simp only [compute_output, if_neg (by norm_num : ¬(4 : Int) < 3)]
      rfl
    by_cases hbr : (28 : Int) ≤ (d - 1) * (draws i).ts + (draws i).tf
    · have hloop : tconvInitLoop [28, 28, 3] draws i (n + 1) a =
          ({ strides := a.strides ++ [[(draws i).ts, (draws i).ts, 1]],
             filters := a.filters ++ [[(draws i).tf, (draws i).tf, 3]],
             inits := a.inits ++ [(draws i).ini],
             acts := a.acts ++ [(draws i).ac],
             output_shapes := a.output_shapes ++
               [[-1, (d - 1) * (draws i).ts + (draws i).tf,
                 (d - 1) * (draws i).ts + (draws i).tf, 3]],
             shape := [-1, (d - 1) * (draws i).ts + (draws i).tf,
                 (d - 1) * (draws i).ts + (draws i).tf, 3] }, some i) := by
        simp only [tconvInitLoop, hsh2]
        rw [if_pos ⟨hbr, hbr⟩]
        simp only [setLastChan, setLastI, List.dropLast_concat, List.getLastD_concat]
        rfl
      refine ⟨i, le_refl i, by omega, ?_, ?_, ?_, ?_⟩
      · rw [hloop]
      · rw [hloop]
        simp only [List.getLastD_concat]
        rfl
      · rw [hloop]
        simp only [List.getLastD_concat]
        exact hbr
      · rw [hloop]
        simp only [List.getLastD_concat]
        exact hbr
    · have hstepEq : tconvInitLoop [28, 28, 3] draws i (n + 1) a =
          tconvInitLoop [28, 28, 3] draws (i + 1) n
            { strides := a.strides ++ [[(draws i).ts, (draws i).ts, 1]],
              filters := a.filters ++
                [[(draws i).tf, (draws i).tf, (draws i).tc]],
              inits := a.inits ++ [(draws i).ini],
              acts := a.acts ++ [(draws i).ac],
              output_shapes := a.output_shapes ++
                [(-1) :: ([(d - 1) * (draws i).ts + (draws i).tf,
                  (d - 1) * (draws i).ts + (draws i).tf] ++ [(draws i).tc])],
              shape := (-1) :: ([(d - 1) * (draws i).ts + (draws i).tf,
                  (d - 1) * (draws i).ts + (draws i).tf] ++ [(draws i).tc]) } := by
        simp only [tconvInitLoop, hsh2]
        rw [if_neg (fun hc => absurd hc.1 hbr)]
      obtain ⟨j, hj0, hjlt, hbrk, hch, h1', h2'⟩ := ih (i + 1)
        { strides := a.strides ++ [[(draws i).ts, (draws i).ts, 1]],
          filters := a.filters ++ [[(draws i).tf, (draws i).tf, (draws i).tc]],
          inits := a.inits ++ [(draws i).ini],
          acts := a.acts ++ [(draws i).ac],
          output_shapes := a.output_shapes ++
            [(-1) :: ([(d - 1) * (draws i).ts + (draws i).tf,
              (d - 1) * (draws i).ts + (draws i).tf] ++ [(draws i).tc])],
          shape := (-1) :: ([(d - 1) * (draws i).ts + (draws i).tf,
              (d - 1) * (draws i).ts + (draws i).tf] ++ [(draws i).tc]) }
        ((d - 1) * (draws i).ts + (draws i).tf) [(draws i).tc] rfl
        (by omega) (by omega) (by omega)
      exact ⟨j, by omega, by omega, by rw [hstepEq]; exact hbrk,
        by rw [hstepEq]; exact hch, by rw [hstepEq]; exact h1',
        by rw [hstepEq]; exact h2'⟩

/-- C5: `TConvDescriptor.random_init` on input shape (7,7,k) (any
channel count k) and target output (28,28,3), with every stride draw
≥ 1 and every filter-size draw ≥ 2 (as `randint(1, max_stride)` and
`randint(2, max_filter)` guarantee for any `max_stride ≥ 2`,
`max_filter ≥ 3`), exits its 300-iteration loop through the termination
condition at some iteration `j < 300`; afterwards
`number_hidden_layers = j + 1`, the final layer's channel parameter
equals 3, and both final cached output spatial dimensions are ≥ 28. -/
theorem tconv_random_init_reaches_target (s : TConvState) (k : Int)
    (draws : Nat → TDraw)
    (hs : ∀ n, 1 ≤ (draws n).ts) (hf : ∀ n, 2 ≤ (draws n).tf) :
    ∃ j : Nat, j < 300 ∧
      (tconvInitLoop [28, 28, 3] draws 0 300
        ⟨[], [], [], [], s.output_shapes, (-1) :: [7, 7, k]⟩).2 = some j ∧
      (TConvState.random_init s [7, 7, k] [28, 28, 3] draws).number_hidden_layers
        = (j : Int) + 1 ∧
      ((TConvState.random_init s [7, 7, k] [28, 28, 3]
        draws).filters.getLastD []).getD 2 0 = 3 ∧
      28 ≤ ((TConvState.random_init s [7, 7, k] [28, 28, 3]
        draws).output_shapes.getLastD []).getD 1 0 ∧
      28 ≤ ((TConvState.random_init s [7, 7, k] [28, 28, 3]
        draws).output_shapes.getLastD []).getD 2 0 := by
  obtain ⟨j, hj0, hjlt, hbrk, hch, h1, h2⟩ := tconvInitLoop_breaks draws hs hf 300 0
    ⟨[], [], [], [], s.output_shapes, (-1) :: [7, 7, k]⟩ 7 [k] rfl
    (by norm_num) (by norm_num) (by norm_num)
  refine ⟨j, by omega, hbrk, ?_, ?_, ?_, ?_⟩
  · simp only [TConvState.random_init, hbrk]
  · simp only [TConvState.random_init]
    exact hch
  · simp only [TConvState.random_init]
    exact h1
  · simp only [TConvState.random_init]
    exact h2

/-- Witness for C5 with constant draws (stride 1, filter size 2,
channel 9) on input (7,7,11). -/
theorem tconv_random_init_reaches_target_witness :
    ∃ j : Nat, j < 300 ∧
      (tconvInitLoop [28, 28, 3] (fun _ => ⟨1, 2, 9, some 1, some 1⟩) 0 300
        ⟨[], [], [], [], ([] : List (List Int)), (-1) :: [7, 7, 11]⟩).2 = some j ∧
      (TConvState.random_init ⟨0, [], [], [], [], [], [], []⟩ [7, 7, 11] [28, 28, 3]
        (fun _ => ⟨1, 2, 9, some 1, some 1⟩)).number_hidden_layers = (j : Int) + 1 ∧
      ((TConvState.random_init ⟨0, [], [], [], [], [], [], []⟩ [7, 7, 11] [28, 28, 3]
        (fun _ => ⟨1, 2, 9, some 1, some 1⟩)).filters.getLastD []).getD 2 0 = 3 ∧
      28 ≤ ((TConvState.random_init ⟨0, [], [], [], [], [], [], []⟩ [7, 7, 11]
        [28, 28, 3] (fun _ => ⟨1, 2, 9, some 1, some 1⟩)).output_shapes.getLastD
          []).getD 1 0 ∧
      28 ≤ ((TConvState.random_init ⟨0, [], [], [], [], [], [], []⟩ [7, 7, 11]
        [28, 28, 3] (fun _ => ⟨1, 2, 9, some 1, some 1⟩)).output_shapes.getLastD
          []).getD 2 0 :=
  tconv_random_init_reaches_target ⟨0, [], [], [], [], [], [], []⟩ 11
    (fun _ => ⟨1, 2, 9, some 1, some 1⟩) (fun _ => le_refl 1) (fun _ => le_refl 2)

end EvoFlow
